import Mathlib

/-!
Verification development for the ML-Pdf-Python report-ingestion pipeline.

The definitions below are a shallow embedding of the Python sources
`name_extractor.py` and `mail_fetcher.py`.  Pure functions become Lean
functions over `List Char` / `String`; the regular expressions of the
source are translated operator by operator into explicit matchers
(Python `re` semantics: leftmost match, greedy quantifiers with
backtracking where it can change the outcome); the IMAP/HTTP side
effects of `mail_fetcher.py` become explicit state passing over a
`PState` record, with the network modelled as environment functions.

Character-class note: Python's Unicode `\w` and `\s` are modelled over
the scripts this program actually handles, i.e. ASCII plus the
Devanagari range U+0900-U+097F that the source names explicitly;
`str.lower`/`str.upper`/`re.IGNORECASE` fold ASCII letters (Devanagari
has no case).
-/

namespace MLPdf

/-! ## Character classes (`\w`, `\s`, `[A-Z0-9]`, ...) -/

/-- Devanagari block `ऀ-ॿ` kept by `normalize_text`'s character filter. -/
def isDevanagari (c : Char) : Bool :=
  0x900 ≤ c.toNat && c.toNat ≤ 0x97F

/-- Python regex `\w` over the program's scripts: alphanumerics, underscore, Devanagari. -/
def isWordChar (c : Char) : Bool :=
  c.isAlphanum || c = '_' || isDevanagari c

/-- Python regex `\s`: ASCII whitespace. -/
def isSpaceChar (c : Char) : Bool :=
  c = ' ' || c = '\t' || c = '\n' || c = '\r' || c = '\x0b' || c = '\x0c'

/-- Characters kept by `re.sub(r"[^\w\sऀ-ॿ]", "", text)`. -/
def keepChar (c : Char) : Bool :=
  isWordChar c || isSpaceChar c

/-- ASCII case-insensitive character comparison (`re.IGNORECASE`). -/
def icaseEq (a b : Char) : Bool :=
  a.toLower == b.toLower

/-- Python `str.lower()` (ASCII fold), character-list based. -/
def strLower (s : String) : String :=
  (s.toList.map Char.toLower).asString

/-- Python `str.endswith(q)`, character-list based. -/
def strEndsWith (s q : String) : Bool :=
  let l := s.toList
  let t := q.toList
  l.drop (l.length - t.length) == t

/-- Split on a separator character, keeping empty pieces (Python
    `str.split(sep)`); the accumulator is the current piece reversed. -/
def splitOnCharGo (sep : Char) (acc : List Char) : List Char → List (List Char)
  | [] => [acc.reverse]
  | c :: cs =>
    if c = sep then acc.reverse :: splitOnCharGo sep [] cs
    else splitOnCharGo sep (c :: acc) cs

def splitOnChar (sep : Char) (l : List Char) : List (List Char) :=
  splitOnCharGo sep [] l

/-! ## List-level string helpers -/

/-- Python `str.strip()` over the `\s` class. -/
def stripWs (l : List Char) : List Char :=
  ((l.dropWhile isSpaceChar).reverse.dropWhile isSpaceChar).reverse

/-- `re.sub(r"\s+", " ", text)`: each maximal whitespace run becomes one space. -/
def collapseSp : List Char → List Char
  | [] => []
  | [c] => if isSpaceChar c then [' '] else [c]
  | c :: d :: cs =>
    if isSpaceChar c && isSpaceChar d then collapseSp (d :: cs)
    else (if isSpaceChar c then ' ' else c) :: collapseSp (d :: cs)

/-- Emission step of `re.sub(r'(.)\1{2,}', r'\1', text)`: a run of `n` copies of
    `c` collapses to one copy when `n ≥ 3` and `c` is not a newline (regex `.`
    does not match `\n`). -/
def squeezeEmit (c : Char) (n : Nat) : List Char :=
  if c ≠ '\n' && 3 ≤ n then [c] else List.replicate n c

def squeezeGo : Char → Nat → List Char → List Char
  | c, n, [] => squeezeEmit c n
  | c, n, d :: ds =>
    if d = c then squeezeGo c (n + 1) ds
    else squeezeEmit c n ++ squeezeGo d 1 ds

/-- `re.sub(r'(.)\1{2,}', r'\1', text)` — collapse repeated characters. -/
def squeeze : List Char → List Char
  | [] => []
  | c :: cs => squeezeGo c 1 cs

/-- Number of tokens of Python `str.split()` (split on whitespace runs,
    ignoring leading/trailing whitespace).  The flag records whether the scan
    is currently inside a token. -/
def tokCount : Bool → List Char → Nat
  | _, [] => 0
  | inTok, c :: cs =>
    if isSpaceChar c then tokCount false cs
    else (if inTok then 0 else 1) + tokCount true cs

/-- Match a literal case-insensitively at the head; return the rest on success. -/
def icaseLit : List Char → List Char → Option (List Char)
  | [], l => some l
  | _ :: _, [] => none
  | p :: ps, c :: cs => if icaseEq p c then icaseLit ps cs else none

/-- Match a literal case-sensitively at the head; return the rest on success. -/
def litAt : List Char → List Char → Option (List Char)
  | [], l => some l
  | _ :: _, [] => none
  | p :: ps, c :: cs => if p = c then litAt ps cs else none

/-! ## `normalize_text` (name_extractor.py lines 20-26) -/

def normList (l : List Char) : List Char :=
  stripWs (collapseSp ((squeeze l).filter keepChar))

/-- `normalize_text`: reduce repeated chars, remove non-letters, collapse
    spaces, strip. -/
def normalize_text (text : String) : String :=
  if text = "" then "" else (normList text.toList).asString

/-! ## Regex matchers used by `clean_name`

A matcher takes the Boolean "previous character was a word character"
(for `\b`) and the suffix of the scan position, and returns the number of
characters the match consumes (`none` if no match at this position).
`MState` threads (remaining input, consumed count) through the pattern's
components. -/

abbrev MState := List Char × Nat

/-- Optional single character (`x?` for a literal `x`): consume it if present. -/
def mChar? (x : Char) : MState → MState
  | (c :: l, n) => if c = x then (l, n + 1) else (c :: l, n)
  | s => s

/-- Optional single character out of a class (e.g. `[:\-]?`, `[Yy]?`). -/
def mClassOpt (p : Char → Bool) : MState → MState
  | (c :: l, n) => if p c then (l, n + 1) else (c :: l, n)
  | s => s

/-- Greedy `\s*`. -/
def mSpaces : MState → MState
  | (l, n) =>
    let k := (l.takeWhile isSpaceChar).length
    (l.drop k, n + k)

/-- Mandatory single character out of a class (e.g. `[Yy]`, `[MF]`). -/
def mClass (p : Char → Bool) : MState → Option MState
  | (c :: l, n) => if p c then some (l, n + 1) else none
  | ([], _) => none

/-- `re.sub` driver: scan left to right, at each position try the matcher; on a
    match skip the consumed characters (non-overlapping continuation, with the
    `\b` context taken from the last consumed character of the original text),
    otherwise keep the character.  The fuel equals the input length; every
    match consumes at least one character, so the fuel never runs out. -/
def subFuel (m : Bool → List Char → Option Nat) : Nat → Bool → List Char → List Char
  | 0, _, l => l
  | _ + 1, _, [] => []
  | f + 1, pw, c :: cs =>
    match m pw (c :: cs) with
    | some (n + 1) =>
      subFuel m f (isWordChar ((c :: cs).getD n 'x')) ((c :: cs).drop (n + 1))
    | _ => c :: subFuel m f (isWordChar c) cs

def subAllB (m : Bool → List Char → Option Nat) (l : List Char) : List Char :=
  subFuel m l.length false l

/-- Matcher for `\(?\s*\d{1,3}\s*[Yy]\s*/?\s*[MF]\s*\)?` (first age/gender
    pattern, name_extractor.py line 36).  `\d{1,3}` is greedy with
    backtracking: a digit run longer than 3 cannot be followed by `[Yy]`
    after giving back digits (the next character would still be a digit),
    so the run length must be between 1 and 3. -/
def mAge1 (l : List Char) : Option Nat :=
  let s := mSpaces (mChar? '(' (l, 0))
  let ds := (s.1.takeWhile Char.isDigit).length
  if ds < 1 || 3 < ds then none
  else
    let s := mSpaces (s.1.drop ds, s.2 + ds)
    (mClass (fun c => c = 'Y' || c = 'y') s).bind fun s =>
      let s := mSpaces (mChar? '/' (mSpaces s))
      (mClass (fun c => c = 'M' || c = 'F') s).map fun s =>
        (mChar? ')' (mSpaces s)).2

/-- Matcher for `\(?\s*[MF]\s*/?\s*\d{1,3}\s*[Yy]?\s*\)?` (second age/gender
    pattern, line 37).  Everything after the digits is optional, so a digit
    run longer than 3 simply yields 3 consumed digits. -/
def mAge2 (l : List Char) : Option Nat :=
  let s := mSpaces (mChar? '(' (l, 0))
  (mClass (fun c => c = 'M' || c = 'F') s).bind fun s =>
    let s := mSpaces (mChar? '/' (mSpaces s))
    let ds := (s.1.takeWhile Char.isDigit).length
    if ds < 1 then none
    else
      let k := min ds 3
      let s := mSpaces (s.1.drop k, s.2 + k)
      let s := mSpaces (mClassOpt (fun c => c = 'Y' || c = 'y') s)
      some (mChar? ')' s).2

/-- Stop words of the truncation split (line 41). -/
def stopWords : List String :=
  ["DOB", "Age", "Gender", "Sex", "MRN", "VID", "ID", "Patient No", "UHID",
   "Registration", "Tests Done", "Sample Collected"]

/-- `\b` after a stop word: next character is not a word character (or end). -/
def boundaryAt : List Char → Bool
  | [] => true
  | c :: _ => !isWordChar c

/-- Does some stop word match (case-insensitively) at the head of `l`, with a
    word boundary after it?  (All alternatives begin and end with a word
    character, so `\b` before reduces to "previous char not a word char".) -/
def stopHitAt (l : List Char) : Bool :=
  stopWords.any fun w =>
    match icaseLit w.toList l with
    | some rest => boundaryAt rest
    | none => false

/-- `re.split(r"\b(DOB|...)\b", raw, re.IGNORECASE)[0]`: the text before the
    first whole-word stop-word occurrence.  The flag records whether the
    previous character was a word character. -/
def cutStop : Bool → List Char → List Char
  | _, [] => []
  | prevW, c :: cs =>
    if !prevW && stopHitAt (c :: cs) then []
    else c :: cutStop (isWordChar c) cs

/-- Honorific prefixes stripped in order (name_extractor.py line 12). -/
def honorifics : List String :=
  ["Mr", "Mrs", "Ms", "Miss", "Dr", "Shri", "Smt", "Sh", "Smt.", "Dr.",
   "श्री", "श्रीमती"]

/-- The `\.?\s+` tail of the honorific pattern, after the prefix has matched
    leaving `r`: consume an optional dot, then at least one whitespace; on
    failure the whole substitution leaves `l` unchanged (`\.?` is greedy, but
    if a dot is present and not followed by whitespace, backtracking to the
    empty alternative still fails, since `\s+` cannot match the dot). -/
def honorificTail (r l : List Char) : List Char :=
  let r' := if r.head? = some '.' then r.drop 1 else r
  let sp2 := (r'.takeWhile isSpaceChar).length
  if 0 < sp2 then r'.drop sp2 else l

/-- One pass of `re.sub(rf"^\s*{re.escape(p)}\.?\s+", "", raw, re.IGNORECASE)`. -/
def stripOneHonorific (p : List Char) (l : List Char) : List Char :=
  let sp := (l.takeWhile isSpaceChar).length
  match icaseLit p (l.drop sp) with
  | none => l
  | some r => honorificTail r l

def stripHonorifics (l : List Char) : List Char :=
  honorifics.foldl (fun acc p => stripOneHonorific p.toList acc) l

/-- Greedy `\d+` followed by `\b`: consume a non-empty maximal digit run whose
    following character is not a word character (giving back digits never
    helps, since the next character would then be a digit). -/
def digitsThenBoundary (s : MState) : Option Nat :=
  let d := (s.1.takeWhile Char.isDigit).length
  if d = 0 then none
  else if boundaryAt (s.1.drop d) then some (s.2 + d) else none

/-- `\bNo\.?\s*[:\-]?\s*\d+\b` (leading `\b` checked by the caller). -/
def mCodeNo (l : List Char) : Option Nat :=
  (icaseLit "No".toList l).bind fun r =>
    let s := mSpaces (mChar? '.' (r, 2))
    let s := mSpaces (mClassOpt (fun c => c = ':' || c = '-') s)
    digitsThenBoundary s

/-- `\bC\d+\b` and `\bT\d+\b` (IGNORECASE, so also `c`/`t`). -/
def mCodeLetter (x : Char) (l : List Char) : Option Nat :=
  match l with
  | c :: r => if icaseEq c x then digitsThenBoundary (r, 1) else none
  | [] => none

/-- `\bVID\s*[:\-]?\d+\b`. -/
def mCodeVid (l : List Char) : Option Nat :=
  (icaseLit "VID".toList l).bind fun r =>
    let s := mSpaces (r, 3)
    let s := mClassOpt (fun c => c = ':' || c = '-') s
    digitsThenBoundary s

/-- `\b\d{1,4}\b`: a maximal digit run of length 1-4 delimited by boundaries
    on both sides (longer runs cannot match: backtracking leaves a digit as
    the next character, which breaks the trailing `\b`). -/
def mCodeNum (l : List Char) : Option Nat :=
  let d := (l.takeWhile Char.isDigit).length
  if 1 ≤ d && d ≤ 4 && boundaryAt (l.drop d) then some d else none

/-- Combined matcher of the code-token removal (name_extractor.py lines 50-53),
    alternatives in the source's order.  All alternatives start with a word
    character, so the leading `\b` requires the previous character to not be a
    word character. -/
def mCode (prevW : Bool) (l : List Char) : Option Nat :=
  if prevW then none
  else
    (mCodeNo l).orElse fun _ =>
    (mCodeLetter 'C' l).orElse fun _ =>
    (mCodeLetter 'T' l).orElse fun _ =>
    (mCodeVid l).orElse fun _ =>
    mCodeNum l

/-- Junk keywords (name_extractor.py lines 15-17). -/
def junkKeywords : List String :=
  ["sample collected", "tests done", "lab report", "report", "result",
   "date", "patient no"]

/-- The character class `[A-Z0-9]`. -/
def upperDigit (c : Char) : Bool :=
  c.isUpper || c.isDigit

/-- `re.fullmatch(r"[A-Z0-9]{8,}", raw)` — barcode/hash guard. -/
def barcodeLike (l : List Char) : Bool :=
  8 ≤ l.length && l.all upperDigit

/-- `raw.lower() in junk_keywords or len(raw.split()) > 6` (line 61). -/
def junkGuard (l : List Char) : Bool :=
  junkKeywords.contains (strLower l.asString) || 6 < tokCount false l

/-! ## `clean_name` (name_extractor.py lines 29-64) -/

def clean_name (raw : String) : String :=
  if raw = "" then ""
  else
    let l0 := stripWs raw.toList
    let l1 := (normalize_text l0.asString).toList
    let l2 := subAllB (fun _ => mAge1) l1
    let l3 := subAllB (fun _ => mAge2) l2
    let l4 := stripWs (cutStop false l3)
    let l5 := stripHonorifics l4
    let l6 := subAllB mCode l5
    let l7 := stripWs (collapseSp l6)
    if barcodeLike l7 then ""
    else if junkGuard l7 then ""
    else l7.asString

/-! ## `extract_from_text` (name_extractor.py lines 67-94)

The three label patterns share the shape `LABEL\s*[:\-]?\s*([^\n]+)`.
`\s*` also matches newlines; `([^\n]+)` is greedy up to the next newline.
When everything after the label is whitespace up to the end of the text,
the greedy `\s*` backtracks just enough for `([^\n]+)` to capture one
trailing non-newline whitespace character (which then cleans to empty). -/

/-- The `\s*([^\n]+)` tail of the label patterns, at position `l`. -/
def captureLine (l : List Char) : Option (List Char) :=
  let ws := l.takeWhile isSpaceChar
  let rest := l.drop ws.length
  if rest.isEmpty then
    match ws.reverse.dropWhile (· = '\n') with
    | [] => none
    | c :: _ => some [c]
  else some (rest.takeWhile (· != '\n'))

/-- The `\s*[:\-]?\s*([^\n]+)` tail: if the first non-whitespace character is
    `:` or `-` it is consumed by `[:\-]?`, otherwise the two `\s*` fuse and the
    tail is just `captureLine`. -/
def sepCapture (l : List Char) : Option (List Char) :=
  let ws := l.takeWhile isSpaceChar
  let r := l.drop ws.length
  match r with
  | c :: r' => if c = ':' || c = '-' then captureLine r' else captureLine l
  | [] => captureLine l

/-- Match the label words (case-insensitively, separated by `\s*`) at the head
    of `l`; return the rest. -/
def matchWords : List (List Char) → List Char → Option (List Char)
  | [], l => some l
  | [w], l => icaseLit w l
  | w :: ws, l => (icaseLit w l).bind fun r => matchWords ws (r.dropWhile isSpaceChar)

/-- `re.search` for a label pattern: leftmost position where the whole pattern
    matches; the returned value is the captured group. -/
def searchCap (ws : List (List Char)) : List Char → Option (List Char)
  | [] => none
  | c :: cs =>
    match (matchWords ws (c :: cs)).bind sepCapture with
    | some g => some g
    | none => searchCap ws cs

/-- One label pattern of `extract_from_text`: the cleaned candidate of the
    first match, or `""` when there is no match (the source also falls through
    to the next pattern when the cleaned candidate of the first match is
    empty, which coincides with this encoding). -/
def patCand (ws : List String) (t : List Char) : String :=
  match searchCap (ws.map String.toList) t with
  | some g => clean_name g.asString
  | none => ""

/-- spaCy named-entity loop: first PERSON entity whose cleaned text is
    non-empty.  The recognizer itself is an external ML model, passed in as a
    function from text to `(label, entity text)` pairs. -/
def entsCand : List (String × String) → String
  | [] => ""
  | (lbl, txt) :: rest =>
    if lbl = "PERSON" then
      let c := clean_name txt
      if c ≠ "" then c else entsCand rest
    else entsCand rest

/-- Heuristic 2-5 word line scan (lines 89-92). -/
def lineScan : List String → String
  | [] => ""
  | ln :: rest =>
    let c := clean_name ln
    let n := tokCount false c.toList
    if 2 ≤ n && n ≤ 5 then c else lineScan rest

/-- `extract_from_text(text)`: label patterns in order, then named entities,
    then the line heuristic, else `""`. -/
def extract_from_text (nlp : String → List (String × String)) (text : String) : String :=
  let t := text.toList
  let c1 := patCand ["Patient", "Name"] t
  if c1 ≠ "" then c1
  else
    let c2 := patCand ["Name"] t
    if c2 ≠ "" then c2
    else
      let c3 := patCand ["Patient"] t
      if c3 ≠ "" then c3
      else
        let ce := entsCand (nlp text)
        if ce ≠ "" then ce
        else lineScan ((splitOnChar '\n' t).map List.asString)

/-! ## PDF model and the table / filename stages -/

/-- One page as pdfplumber reports it: `extract_text()` may return `None`,
    `extract_tables()` yields rows of optional cells (`or []` quirks folded
    into empty lists). -/
structure PdfPage where
  text : Option String
  tables : List (List (List (Option String)))
deriving DecidableEq

/-- A PDF file as seen through `pdfplumber.open`: opening either raises
    (`Except.error`, e.g. a corrupt file) or yields the pages.  Both opens of
    the same path in the source see the same file, hence one field. -/
structure PdfFile where
  pages : Except Unit (List PdfPage)

/-- Scan one table cell: skipped if `None` or empty, else `extract_from_text`. -/
def cellCand (nlp : String → List (String × String)) : Option String → String
  | none => ""
  | some s => if s = "" then "" else extract_from_text nlp s

def rowCand (nlp : String → List (String × String)) : List (Option String) → String
  | [] => ""
  | c :: cs =>
    let v := cellCand nlp c
    if v ≠ "" then v else rowCand nlp cs

def tableCand (nlp : String → List (String × String)) : List (List (Option String)) → String
  | [] => ""
  | r :: rs =>
    let v := rowCand nlp r
    if v ≠ "" then v else tableCand nlp rs

def tablesCand (nlp : String → List (String × String)) : List (List (List (Option String))) → String
  | [] => ""
  | t :: ts =>
    let v := tableCand nlp t
    if v ≠ "" then v else tablesCand nlp ts

def pagesCand (nlp : String → List (String × String)) : List PdfPage → String
  | [] => ""
  | p :: ps =>
    let v := tablesCand nlp p.tables
    if v ≠ "" then v else pagesCand nlp ps

/-- `extract_from_tables(pdf_path)` (lines 97-108): re-opens the PDF (which can
    raise again) and returns the first surviving cell candidate. -/
def extract_from_tables (nlp : String → List (String × String)) (pdf : PdfFile) :
    Except Unit String :=
  match pdf.pages with
  | .error e => .error e
  | .ok ps => .ok (pagesCand nlp ps)

/-- POSIX `os.path.basename`. -/
def pyBasename (p : String) : String :=
  ((splitOnChar '/' p.toList).getLastD []).asString

/-- The stem of `os.path.splitext`: everything before the last dot, where the
    leading dots of the name never begin an extension. -/
def splitextStem (b : String) : String :=
  let l := b.toList
  let lead := l.takeWhile (· = '.')
  let rest := l.drop lead.length
  let k := (rest.reverse.takeWhile (· != '.')).length
  if k = rest.length then b
  else (lead ++ rest.take (rest.length - k - 1)).asString

/-- Split on `[_\-]+` discarding empty pieces (the flag is the token built so
    far, in reverse). -/
def splitSepsGo : List Char → List Char → List (List Char)
  | acc, [] => if acc.isEmpty then [] else [acc.reverse]
  | acc, c :: cs =>
    if c = '_' || c = '-' then
      (if acc.isEmpty then [] else [acc.reverse]) ++ splitSepsGo [] cs
    else splitSepsGo (c :: acc) cs

def splitSeps (l : List Char) : List (List Char) :=
  splitSepsGo [] l

/-- Python `str.capitalize()`: first character upper-cased, the rest
    lower-cased. -/
def pyCapitalize : List Char → List Char
  | [] => []
  | c :: cs => c.toUpper :: cs.map Char.toLower

/-- `extract_from_filename(file_path)` (lines 111-131). -/
def extract_from_filename (file_path : String) : String :=
  let base := pyBasename file_path
  let name_part := splitextStem base
  let parts := splitSeps name_part.toList
  let parts := parts.filter fun p => !p.all Char.isDigit
  let parts :=
    match parts.getLast? with
    | some last =>
      if ["WL", "REPORT", "RESULT"].contains (last.map Char.toUpper).asString
      then parts.dropLast else parts
    | none => parts
  let toks := parts.filterMap fun p =>
    let cleaned := p.filter fun c => c.isAlpha || isDevanagari c
    if cleaned.length > 1 then some (pyCapitalize cleaned).asString else none
  String.intercalate " " toks

/-- The strict AG Diagnostics guard `re.match(r"^\d+_.*_wl$", stem)`:
    a non-empty maximal digit run, an underscore, then a middle with no
    newline ending in `_wl` (`$` also matches just before one final
    newline; `.` does not match newlines). -/
def agStemMatch (stem : String) : Bool :=
  let l0 := stem.toList
  let l := if l0.getLast? = some '\n' then l0.dropLast else l0
  let ds := l.takeWhile Char.isDigit
  let afterDigits := l.drop ds.length
  0 < ds.length &&
  (match afterDigits with
   | '_' :: rest =>
     let lrest := rest
     decide (lrest.length ≥ 3) &&
     ((lrest.drop (lrest.length - 3)) == ['_', 'w', 'l']) &&
     !(lrest.take (lrest.length - 3)).contains '\n'
   | _ => false)

/-- `extract_patient_name(pdf_path, original_filename)` (lines 134-166).
    The nlp recognizer and the parsed PDF are explicit inputs; opening the
    PDF can fail, and the source does not catch that failure, so the result
    is an `Except`. -/
def extract_patient_name (nlp : String → List (String × String)) (pdf : PdfFile)
    (pdf_path : String) (original_filename : String) : Except Unit (String × String) :=
  let chosen := if original_filename = "" then pdf_path else original_filename
  let base := strLower (pyBasename chosen)
  let stem := splitextStem base
  if agStemMatch stem then
    .ok (extract_from_filename chosen, "filename")
  else
    match pdf.pages with
    | .error e => .error e
    | .ok ps =>
      let text := ps.foldl (fun acc pg =>
        match pg.text with
        | some t => if t = "" then acc else acc ++ normalize_text t ++ "\n"
        | none => acc) ""
      let name := extract_from_text nlp text
      if name ≠ "" then .ok (name, "text")
      else
        match extract_from_tables nlp pdf with
        | .error e => .error e
        | .ok tname =>
          if tname ≠ "" then .ok (tname, "tables")
          else .ok (extract_from_filename chosen, "filename")

/-! ## `mail_fetcher.py`: message processing

State passing replaces the script's side effects.  `PState` carries the
shared `processed_ids` set, the log of `+FLAGS (\Seen)` stores, the log of
upload POSTs (file bytes and patient name), and the log of
`extract_patient_name` invocations.  The network is an environment of
functions: the HTTP response for a POST, the IMAP store outcome for a UID,
the pdfplumber view of written bytes, the spaCy recognizer, and the
Playwright fetch of a Thyrocare link. -/

/-- One MIME part as `process_account` inspects it. -/
structure MimePart where
  isMultipart : Bool
  filename : String
  payload : Option String
  contentType : String
  bodyText : Option String

structure EmailMsg where
  messageIdHdr : Option String
  parts : List MimePart

/-- Outcome of `imap.uid('store', uid, '+FLAGS', '(\\Seen)')`:
    success, a connection-level exception, or any other exception. -/
inductive StoreRes
  | succeeded
  | connErr
  | otherErr

structure PState where
  processed : List String
  seen : List Nat
  uploads : List (String × String)
  extracts : List String
deriving DecidableEq

/-- `msg.get("Message-ID") or str(uid_from_header)`: a missing *or empty*
    header falls back to the UID string (Python truthiness). -/
def messageIdOf (msg : EmailMsg) (uid : Nat) : String :=
  match msg.messageIdHdr with
  | some s => if s = "" then toString uid else s
  | none => toString uid

structure FetchEnv where
  nlp : String → List (String × String)
  pdfOf : String → PdfFile
  thyroFetch : String → Except Unit String
  resp : String → String → Except Unit Nat
  store : Nat → StoreRes

/-- `upload_report_to_api` (mail_fetcher.py lines 166-178): exactly one POST;
    the response (status code or network exception) is only logged — every
    branch returns the same state, and the function returns nothing. -/
def upload_report_to_api (env : FetchEnv) (st : PState)
    (fileBytes patientName : String) : PState :=
  let st' := { st with uploads := st.uploads ++ [(fileBytes, patientName)] }
  match env.resp fileBytes patientName with
  | .ok code => if code = 200 then st' else st'
  | .error _ => st'

/-- A part enters the attachment branch when it is not multipart, has a
    filename ending in `.pdf` (case-insensitively), and its payload decodes. -/
def isPdfPart (p : MimePart) : Bool :=
  !p.isMultipart && p.filename ≠ "" && strEndsWith (strLower p.filename) ".pdf"
    && p.payload.isSome

/-- Lines 276-310: write payload to a temp file, extract, upload; an
    extraction exception is caught by the per-attachment handler (no upload).
    The temp file's random name is abstracted as `"rep_tmp.pdf"`; it is unused
    because the attachment filename is non-empty. -/
def processPdfPart (env : FetchEnv) (st : PState) (part : MimePart) : PState :=
  match part.payload with
  | none => st
  | some payload =>
    let st := { st with extracts := st.extracts ++ [part.filename] }
    match extract_patient_name env.nlp (env.pdfOf payload) "rep_tmp.pdf" part.filename with
    | .ok (nm, _src) => upload_report_to_api env st payload nm
    | .error _ => st

/-- Characters allowed in the Thyrocare link token `[^\s"'<>]+`. -/
def thyroAllowed (c : Char) : Bool :=
  !(isSpaceChar c || c = '"' || c = '\'' || c = '<' || c = '>')

def thyroLit : List Char := "https://thyro.care/n/o/".toList

/-- `re.search(r"https://thyro\.care/n/o/[^\s\x22'<>]+", body)`. -/
def findThyro : List Char → Option String
  | [] => none
  | c :: cs =>
    match litAt thyroLit (c :: cs) with
    | some rest =>
      let tok := rest.takeWhile thyroAllowed
      if tok.isEmpty then findThyro cs else some ((thyroLit ++ tok).asString)
    | none => findThyro cs

/-- `extract_thyrocare_link_from_email` (lines 81-115): decoded text/plain and
    text/html bodies (decode failures skipped), joined by newlines, searched
    for the link. -/
def extract_thyrocare_link (parts : List MimePart) : Option String :=
  let texts := parts.filterMap fun p =>
    if p.contentType = "text/plain" || p.contentType = "text/html" then p.bodyText
    else none
  if texts.isEmpty then none
  else findThyro (String.intercalate "\n" texts).toList

/-- Lines 313-354: when no PDF attachment was handled, look for a Thyrocare
    link, fetch the PDF through the external browser collaborator, extract
    with `original_filename="thyrocare-report.pdf"`, upload.  Every exception
    is caught and only logged. -/
def processThyro (env : FetchEnv) (st : PState) (parts : List MimePart) : PState :=
  match extract_thyrocare_link parts with
  | none => st
  | some link =>
    match env.thyroFetch link with
    | .error _ => st
    | .ok fileBytes =>
      let st := { st with extracts := st.extracts ++ ["thyrocare-report.pdf"] }
      match extract_patient_name env.nlp (env.pdfOf fileBytes)
          "thyro_tmp.pdf" "thyrocare-report.pdf" with
      | .ok (nm, _src) => upload_report_to_api env st fileBytes nm
      | .error _ => st

/-- Lines 247-371, one fetched message.  Returns the updated state and the
    `batch_connection_error` flag.  `message_id` falls back to the UID string;
    an id already in `processed_ids` is skipped before any work; the store
    call and the `processed_ids.add` run after the artifact handling, and a
    connection error there aborts (id not recorded), while any other store
    error merely skips the message's bookkeeping. -/
def processMessage (env : FetchEnv) (st : PState) (uid : Nat) (msg : EmailMsg) :
    PState × Bool :=
  let message_id := messageIdOf msg uid
  if st.processed.contains message_id then (st, false)
  else
    let pdfParts := msg.parts.filter isPdfPart
    let st1 :=
      if pdfParts.isEmpty then processThyro env st msg.parts
      else pdfParts.foldl (processPdfPart env) st
    match env.store uid with
    | .succeeded =>
      ({ st1 with seen := st1.seen ++ [uid], processed := st1.processed ++ [message_id] },
       false)
    | .connErr => (st1, true)
    | .otherErr => (st1, false)

/-- Result of `imap.uid('fetch', uid_str, '(RFC822)')` for a batch. -/
inductive FetchRes
  | connErr
  | notOk
  | ok (msgs : List (Nat × EmailMsg))

structure SessEnv extends FetchEnv where
  fetch : List Nat → FetchRes

/-- The inner message loop of a batch, with the early break on a
    connection error during a message. -/
def processMsgs (env : FetchEnv) (st : PState) : List (Nat × EmailMsg) → PState × Bool
  | [] => (st, false)
  | (uid, m) :: rest =>
    let r := processMessage env st uid m
    if r.2 then (r.1, true) else processMsgs env r.1 rest

/-- The batch loop of `process_account` (lines 222-377): a connection error on
    the batch fetch aborts the whole session; a non-OK fetch skips the batch;
    a connection error inside a batch also aborts the session. -/
def processBatches (env : SessEnv) (st : PState) : List (List Nat) → PState
  | [] => st
  | b :: rest =>
    match env.fetch b with
    | .connErr => st
    | .notOk => processBatches env st rest
    | .ok msgs =>
      let r := processMsgs env.toFetchEnv st msgs
      if r.2 then r.1 else processBatches env r.1 rest

/-- `BATCH_SIZE = 20`. -/
def BATCH_SIZE : Nat := 20

/-- Partition into fixed-size batches (`latest_uids[i:i+BATCH_SIZE]`), with
    fuel bounded by the list length. -/
def chunksFuel (n : Nat) : Nat → List Nat → List (List Nat)
  | 0, l => if l.isEmpty then [] else [l]
  | _ + 1, [] => []
  | f + 1, c :: cs => ((c :: cs).take n) :: chunksFuel n f ((c :: cs).drop n)

def chunksOf (n : Nat) (l : List Nat) : List (List Nat) :=
  chunksFuel n l.length l

/-- `sorted(uids, reverse=True)` via insertion. -/
def insertDesc (x : Nat) : List Nat → List Nat
  | [] => [x]
  | y :: ys => if y ≤ x then x :: y :: ys else y :: insertDesc x ys

def sortDesc (l : List Nat) : List Nat :=
  l.foldr insertDesc []

/-- The post-login body of `process_account`: newest `max_emails` UIDs,
    processed in batches of `BATCH_SIZE`. -/
def process_account (env : SessEnv) (st : PState) (uids : List Nat)
    (maxEmails : Nat) : PState :=
  let latest := (sortDesc uids).take maxEmails
  processBatches env st (chunksOf BATCH_SIZE latest)

/-! ## `load_state` / `save_state` (mail_fetcher.py lines 46-55)

`save_state` opens the state file with mode `"w"` — which truncates it in
place — and then streams the JSON dump into it.  The observable file
contents at a crash are therefore: the old file (crash before the open),
a truncated/partially-written file that `json.load` cannot parse (crash
between the truncating open and the completed dump), or the fully
written new list. -/

inductive FileState
  | absent
  | truncated
  | written (ids : List String)
deriving DecidableEq

/-- `load_state`: a missing file yields the empty set; an empty or partially
    written file makes `json.load` raise; a complete file yields its ids. -/
def load_state : FileState → Except Unit (List String)
  | .absent => .ok []
  | .truncated => .error ()
  | .written ids => .ok ids

/-- The file states observable if the process crashes before, during, or
    after `save_state old → ids`. -/
def saveCrashStates (old : FileState) (ids : List String) : List FileState :=
  [old, .truncated, .written ids]

/-! ## Auxiliary lemmas about the cleaning stages -/

theorem space_cases {c : Char} (h : isSpaceChar c = true) :
    c = ' ' ∨ c = '\t' ∨ c = '\n' ∨ c = '\r' ∨ c = '\x0b' ∨ c = '\x0c' := by
  simpa [isSpaceChar, or_assoc] using h

theorem upperDigit_not_space {c : Char} (hu : upperDigit c = true) :
    isSpaceChar c = false := by
  cases hs : isSpaceChar c
  · rfl
  · rcases space_cases hs with h | h | h | h | h | h <;> subst h <;>
      exact absurd hu (by decide)

theorem all_cons_true {P : Char → Bool} {c : Char} {cs : List Char}
    (h : (c :: cs).all P = true) : P c = true ∧ cs.all P = true := by
  simpa [List.all_cons, Bool.and_eq_true] using h

theorem takeWhile_space_nil {l : List Char} (h : l.all upperDigit = true) :
    l.takeWhile isSpaceChar = [] := by
  cases l with
  | nil => rfl
  | cons c cs =>
    obtain ⟨hc, _⟩ := all_cons_true h
    simp [List.takeWhile_cons, upperDigit_not_space hc]

theorem dropWhile_space_self {l : List Char} (h : l.all upperDigit = true) :
    l.dropWhile isSpaceChar = l := by
  cases l with
  | nil => rfl
  | cons c cs =>
    obtain ⟨hc, _⟩ := all_cons_true h
    simp [List.dropWhile_cons, upperDigit_not_space hc]

theorem stripWs_self {l : List Char} (h : l.all upperDigit = true) :
    stripWs l = l := by
  have hr : l.reverse.all upperDigit = true := by simpa using h
  unfold stripWs
  rw [dropWhile_space_self h, dropWhile_space_self hr, List.reverse_reverse]

theorem collapseSp_self {l : List Char} (h : l.all upperDigit = true) :
    collapseSp l = l := by
  induction l with
  | nil => rfl
  | cons c cs ih =>
    obtain ⟨hc, hcs⟩ := all_cons_true h
    cases cs with
    | nil => simp [collapseSp, upperDigit_not_space hc]
    | cons d ds =>
      obtain ⟨hd, _⟩ := all_cons_true hcs
      simp only [collapseSp]
      rw [upperDigit_not_space hc, upperDigit_not_space hd]
      simpa using ih hcs

theorem icaseLit_suffix : ∀ (p l r : List Char), icaseLit p l = some r → ∃ t, l = t ++ r := by
  intro p
  induction p with
  | nil =>
    intro l r h
    have : l = r := by simpa [icaseLit] using h
    exact ⟨[], by simp [this]⟩
  | cons a as ih =>
    intro l r h
    cases l with
    | nil => simp [icaseLit] at h
    | cons c cs =>
      by_cases hq : icaseEq a c = true
      · simp only [icaseLit, hq, if_true] at h
        obtain ⟨t, ht⟩ := ih cs r h
        exact ⟨c :: t, by simp [ht]⟩
      · simp [icaseLit, hq] at h

theorem all_of_suffix {P : Char → Bool} {t r : List Char}
    (h : (t ++ r).all P = true) : r.all P = true := by
  simp only [List.all_append, Bool.and_eq_true] at h
  exact h.2

theorem honorificTail_self {r : List Char} (l : List Char)
    (hr : r.all upperDigit = true) : honorificTail r l = l := by
  have hhd : (if r.head? = some '.' then r.drop 1 else r) = r := by
    cases r with
    | nil => rfl
    | cons c cs =>
      obtain ⟨hc, _⟩ := all_cons_true hr
      have : c ≠ '.' := by rintro rfl; exact absurd hc (by decide)
      simp [this]
  simp only [honorificTail, hhd, takeWhile_space_nil hr]
  simp

theorem stripOneHonorific_self {l : List Char} (p : List Char)
    (h : l.all upperDigit = true) : stripOneHonorific p l = l := by
  simp only [stripOneHonorific, takeWhile_space_nil h, List.length_nil, List.drop_zero]
  cases hm : icaseLit p l with
  | none => rfl
  | some r =>
    obtain ⟨t, ht⟩ := icaseLit_suffix p l r hm
    exact honorificTail_self l (all_of_suffix (ht ▸ h))

theorem stripHonorifics_self {l : List Char} (h : l.all upperDigit = true) :
    stripHonorifics l = l := by
  unfold stripHonorifics
  generalize honorifics = hs
  induction hs with
  | nil => rfl
  | cons p ps ih => rw [List.foldl_cons, stripOneHonorific_self p.toList h, ih]

/-! ## Claim C3: the dedup gate is idempotent -/

/-- C3: a message whose durable identifier is already in the processed set is
    skipped entirely: no extraction, no upload, no state change (the whole
    `PState`, including the logs, is returned untouched). -/
theorem dedup_gate_idempotent (env : FetchEnv) (st : PState) (uid : Nat) (msg : EmailMsg)
    (h : st.processed.contains (messageIdOf msg uid) = true) :
    processMessage env st uid msg = (st, false) := by
  simp only [processMessage, h, if_true]

/-- Witness for C3 at a concrete already-processed message. -/
theorem dedup_gate_idempotent_witness :
    (PState.mk ["m1"] [] [] []).processed.contains
        (messageIdOf ⟨some "m1", []⟩ 5) = true ∧
    processMessage (FetchEnv.mk (fun _ => []) (fun _ => ⟨.error ()⟩)
        (fun _ => .error ()) (fun _ _ => .error ()) (fun _ => .succeeded))
        ⟨["m1"], [], [], []⟩ 5 ⟨some "m1", []⟩ = (⟨["m1"], [], [], []⟩, false) :=
  ⟨by decide,
   dedup_gate_idempotent _ ⟨["m1"], [], [], []⟩ 5 ⟨some "m1", []⟩ (by decide)⟩

/-! ## Claim C5: cleaning is *not* idempotent -/

/-- C5 counterexample: `clean_name` strips only one leading honorific per pass
    (`"Mr Mr John"` cleans to `"Mr John"`, which cleans to `"John"`), so
    `clean(clean x) = clean x` fails. -/
theorem clean_name_idempotent_cex :
    clean_name (clean_name "Mr Mr John") ≠ clean_name "Mr Mr John" := by decide

/-- C5 (amended): cleaning is not idempotent in general — a second application
    can change the result (e.g. strip a further honorific prefix, see the
    counterexample); `clean(clean x) = clean x` does hold provided the cleaned
    form of `x` is left unchanged by every cleaning stage and passes both
    guards. -/
theorem clean_name_idempotent_on_stage_fixed (x : String)
    (h0 : stripWs (clean_name x).toList = (clean_name x).toList)
    (h1 : normalize_text (clean_name x) = clean_name x)
    (h2 : subAllB (fun _ => mAge1) (clean_name x).toList = (clean_name x).toList)
    (h3 : subAllB (fun _ => mAge2) (clean_name x).toList = (clean_name x).toList)
    (h4 : stripWs (cutStop false (clean_name x).toList) = (clean_name x).toList)
    (h5 : stripHonorifics (clean_name x).toList = (clean_name x).toList)
    (h6 : subAllB mCode (clean_name x).toList = (clean_name x).toList)
    (h7 : stripWs (collapseSp (clean_name x).toList) = (clean_name x).toList)
    (h8 : barcodeLike (clean_name x).toList = false)
    (h9 : junkGuard (clean_name x).toList = false) :
    clean_name (clean_name x) = clean_name x := by
  generalize hy : clean_name x = y at *
  by_cases hempty : y = ""
  · subst hempty; rfl
  · conv_lhs => rw [clean_name]
    rw [if_neg hempty]
    simp only [h0, String.asString_toList, h1, h2, h3, h4, h5, h6, h7, h8, h9,
      Bool.false_eq_true, if_false]

/-- Witness for C5 (amended) at `"John Smith"`, a fixed point of every stage. -/
theorem clean_name_idempotent_on_stage_fixed_witness :
    stripWs (clean_name "John Smith").toList = (clean_name "John Smith").toList ∧
    junkGuard (clean_name "John Smith").toList = false ∧
    clean_name (clean_name "John Smith") = clean_name "John Smith" :=
  ⟨by decide, by decide,
   clean_name_idempotent_on_stage_fixed "John Smith" (by decide) (by decide)
     (by decide) (by decide) (by decide) (by decide) (by decide) (by decide)
     (by decide) (by decide)⟩

/-! ## Claim C9: the barcode guard -/

/-- C9 counterexample: `"AAAAAAAA"` is 8 uppercase alphanumerics with no
    separators, yet it cleans to `"A"`, not `""` — `normalize_text` collapses
    the 3+ run before the barcode guard can see an 8+ character string. -/
theorem barcode_guard_cex : clean_name "AAAAAAAA" ≠ "" := by decide

/-- C9 (amended): a string of 8+ uppercase alphanumerics with no separators
    cleans to empty provided the content-rewriting stages (repeated-character
    collapsing inside `normalize_text`, the two age/gender removals, the
    stop-word cut and the code-token removal) leave it unchanged; otherwise
    the rewritten string can be short enough to escape the barcode guard. -/
theorem barcode_guard_on_stage_fixed (x : String)
    (hchars : x.toList.all upperDigit = true)
    (hlen : 8 ≤ x.toList.length)
    (h1 : normalize_text x = x)
    (h2 : subAllB (fun _ => mAge1) x.toList = x.toList)
    (h3 : subAllB (fun _ => mAge2) x.toList = x.toList)
    (h4 : cutStop false x.toList = x.toList)
    (h5 : subAllB mCode x.toList = x.toList) :
    clean_name x = "" := by
  have hx : x ≠ "" := by
    intro he
    rw [he] at hlen
    simp at hlen
  have hb : barcodeLike x.toList = true := by
    unfold barcodeLike
    rw [hchars, Bool.and_true]
    exact decide_eq_true hlen
  conv_lhs => rw [clean_name]
  rw [if_neg hx]
  simp only [stripWs_self hchars, String.asString_toList, h1, h2, h3, h4,
    stripHonorifics_self hchars, h5, collapseSp_self hchars, hb, if_true]

/-- Witness for C9 (amended) at `"ABCDEFG1"`. -/
theorem barcode_guard_on_stage_fixed_witness :
    ("ABCDEFG1".toList.all upperDigit = true) ∧
    8 ≤ "ABCDEFG1".toList.length ∧
    clean_name "ABCDEFG1" = "" :=
  ⟨by decide, by decide,
   barcode_guard_on_stage_fixed "ABCDEFG1" (by decide) (by decide) (by decide)
     (by decide) (by decide) (by decide) (by decide)⟩

/-! ## Claim C6: the text-label stage on the documented example -/

/-- C6 counterexample: on the page text `"Patient Name: MR. SUNIL K. VERMA
    (45Y/M)"` the text stage does *not* yield the title-cased
    `"Sunil K Verma"` the spec states — no stage of `clean_name` changes
    letter case (only the filename stage capitalizes). -/
theorem text_stage_titlecase_cex :
    extract_from_text (fun _ => []) "Patient Name: MR. SUNIL K. VERMA (45Y/M)"
      ≠ "Sunil K Verma" := by decide

/-- C6 (amended): for any recognizer, the text stage on that page text yields
    `"SUNIL K VERMA"` — honorific and age/gender stripped, case preserved. -/
theorem text_stage_uppercase_result (nlp : String → List (String × String)) :
    extract_from_text nlp "Patient Name: MR. SUNIL K. VERMA (45Y/M)"
      = "SUNIL K VERMA" := rfl

/-! ## Claim C8: `save_state` is not crash-atomic -/

/-- C8 counterexample: `save_state` truncates the state file in place before
    writing (`open(state_file, "w")`), so the crash window contains a state
    from which `load_state` recovers neither the old nor the new id list —
    a previously recorded successful upload (`"id1"`) is forgotten. -/
theorem save_state_atomicity_cex :
    ¬ (∀ f ∈ saveCrashStates (.written ["id1"]) ["id1", "id2"],
        load_state f = load_state (.written ["id1"]) ∨
        load_state f = .ok ["id1", "id2"]) := by
  intro h
  have := h .truncated (by simp [saveCrashStates])
  simp [load_state] at this

/-- C8 (amended): absent a crash, a save round-trips (`load` of the fully
    written file returns exactly the saved ids), but the crash window of
    `save_state` contains the truncated in-place file, which `load_state`
    cannot parse — the write is not atomic. -/
theorem save_state_crash_window (old : FileState) (ids : List String) :
    load_state (FileState.written ids) = .ok ids ∧
    saveCrashStates old ids = [old, .truncated, .written ids] ∧
    load_state .truncated = .error () :=
  ⟨rfl, rfl, rfl⟩

/-! ## Claim C2: the lab-bypass rule never inspects PDF content -/

/-- C2: for a filename whose lower-cased stem matches `^\d+_.*_wl$`, the
    extraction result is the filename-stage result — identical for any two
    PDFs with that filename, whatever their bytes. -/
theorem ag_filename_ignores_content (nlp : String → List (String × String))
    (pdf1 pdf2 : PdfFile) (path fname : String)
    (h : agStemMatch (splitextStem (strLower (pyBasename
        (if fname = "" then path else fname)))) = true) :
    extract_patient_name nlp pdf1 path fname = extract_patient_name nlp pdf2 path fname ∧
    extract_patient_name nlp pdf1 path fname =
      .ok (extract_from_filename (if fname = "" then path else fname), "filename") := by
  constructor <;> simp only [extract_patient_name, h, if_true]

/-- Witness for C2: the documented AG Diagnostics filename, with one healthy
    and one corrupt PDF. -/
theorem ag_filename_ignores_content_witness :
    agStemMatch (splitextStem (strLower (pyBasename
      (if "125090547_Ramesh_Kumar_WL.pdf" = "" then "/tmp/a.pdf"
       else "125090547_Ramesh_Kumar_WL.pdf")))) = true ∧
    extract_patient_name (fun _ => []) ⟨.ok [⟨some "Patient Name: Foo Bar", []⟩]⟩
        "/tmp/a.pdf" "125090547_Ramesh_Kumar_WL.pdf" =
      extract_patient_name (fun _ => []) ⟨.error ()⟩
        "/tmp/a.pdf" "125090547_Ramesh_Kumar_WL.pdf" :=
  ⟨by decide,
   (ag_filename_ignores_content (fun _ => []) ⟨.ok [⟨some "Patient Name: Foo Bar", []⟩]⟩
     ⟨.error ()⟩ "/tmp/a.pdf" "125090547_Ramesh_Kumar_WL.pdf" (by decide)).1⟩

/-! ## Claim C4: `extract_patient_name` *can* raise -/

/-- C4 counterexample: with a PDF whose open raises (corrupt file) and a
    non-bypass filename, `extract_patient_name` propagates the exception to
    its caller instead of degrading to the filename fallback. -/
theorem extract_never_raises_cex :
    extract_patient_name (fun _ => []) ⟨.error ()⟩ "/tmp/a.pdf" "report.pdf"
      = .error () := rfl

/-- C4 (amended): `extract_patient_name` is a pure function of its inputs and
    fails exactly when the bypass rule does not apply and opening the PDF
    raises; in every other case it returns a result (total failure of all
    stages yields the empty name with filename provenance). -/
theorem extract_error_iff_open_failure (nlp : String → List (String × String))
    (pdf : PdfFile) (path fname : String) :
    extract_patient_name nlp pdf path fname = .error () ↔
      (agStemMatch (splitextStem (strLower (pyBasename
          (if fname = "" then path else fname)))) = false ∧
       pdf.pages = .error ()) := by
  obtain ⟨pg⟩ := pdf
  cases hg : agStemMatch (splitextStem (strLower (pyBasename
      (if fname = "" then path else fname)))) with
  | true => simp [extract_patient_name, hg]
  | false =>
    cases pg with
    | error e => cases e; simp [extract_patient_name, hg]
    | ok ps =>
      simp only [extract_patient_name, extract_from_tables, hg, Bool.false_eq_true,
        if_false]
      constructor
      · intro hcontra
        exfalso
        revert hcontra
        split
        · simp
        · split <;> simp
      · rintro ⟨-, hpages⟩
        simp at hpages

/-! ## Upload and per-message bookkeeping lemmas -/

/-- `upload_report_to_api` appends exactly one POST to the log and nothing
    else, whatever the response was. -/
theorem upload_eq (env : FetchEnv) (st : PState) (b n : String) :
    upload_report_to_api env st b n =
      { st with uploads := st.uploads ++ [(b, n)] } := by
  unfold upload_report_to_api
  cases env.resp b n with
  | ok code => simp
  | error e => rfl

/-- Normal form of `processPdfPart`, with the upload unfolded. -/
theorem processPdfPart_eq (env : FetchEnv) (st : PState) (p : MimePart) :
    processPdfPart env st p =
      match p.payload with
      | none => st
      | some payload =>
        match extract_patient_name env.nlp (env.pdfOf payload) "rep_tmp.pdf" p.filename with
        | .ok (nm, _) =>
          { st with extracts := st.extracts ++ [p.filename],
                    uploads := st.uploads ++ [(payload, nm)] }
        | .error _ => { st with extracts := st.extracts ++ [p.filename] } := by
  cases hpl : p.payload with
  | none => simp only [processPdfPart, hpl]
  | some payload =>
    cases hx : extract_patient_name env.nlp (env.pdfOf payload) "rep_tmp.pdf" p.filename with
    | ok v =>
      obtain ⟨nm, src⟩ := v
      simp only [processPdfPart, hpl, hx, upload_eq]
    | error e => simp only [processPdfPart, hpl, hx]

/-- Normal form of `processThyro`, with the upload unfolded. -/
theorem processThyro_eq (env : FetchEnv) (st : PState) (parts : List MimePart) :
    processThyro env st parts =
      match extract_thyrocare_link parts with
      | none => st
      | some link =>
        match env.thyroFetch link with
        | .error _ => st
        | .ok fileBytes =>
          match extract_patient_name env.nlp (env.pdfOf fileBytes)
              "thyro_tmp.pdf" "thyrocare-report.pdf" with
          | .ok (nm, _) =>
            { st with extracts := st.extracts ++ ["thyrocare-report.pdf"],
                      uploads := st.uploads ++ [(fileBytes, nm)] }
          | .error _ =>
            { st with extracts := st.extracts ++ ["thyrocare-report.pdf"] } := by
  cases hlink : extract_thyrocare_link parts with
  | none => simp only [processThyro, hlink]
  | some link =>
    cases hfetch : env.thyroFetch link with
    | error e => simp only [processThyro, hlink, hfetch]
    | ok b =>
      cases hx : extract_patient_name env.nlp (env.pdfOf b)
          "thyro_tmp.pdf" "thyrocare-report.pdf" with
      | ok v =>
        obtain ⟨nm, src⟩ := v
        simp only [processThyro, hlink, hfetch, hx, upload_eq]
      | error e => simp only [processThyro, hlink, hfetch, hx]

/-- The artifact stages never touch `processed` or `seen`. -/
theorem processPdfPart_preserves (env : FetchEnv) (st : PState) (p : MimePart) :
    (processPdfPart env st p).processed = st.processed ∧
    (processPdfPart env st p).seen = st.seen := by
  rw [processPdfPart_eq]
  cases p.payload with
  | none => exact ⟨rfl, rfl⟩
  | some payload =>
    dsimp only
    cases hx : extract_patient_name env.nlp (env.pdfOf payload) "rep_tmp.pdf" p.filename with
    | ok v => obtain ⟨nm, src⟩ := v; simp [hx]
    | error e => simp [hx]

theorem foldlPdf_preserves (env : FetchEnv) :
    ∀ (ps : List MimePart) (st : PState),
      ((ps.foldl (processPdfPart env) st).processed = st.processed ∧
       (ps.foldl (processPdfPart env) st).seen = st.seen)
  | [], st => ⟨rfl, rfl⟩
  | p :: ps, st => by
    rw [List.foldl_cons]
    obtain ⟨h1, h2⟩ := foldlPdf_preserves env ps (processPdfPart env st p)
    obtain ⟨g1, g2⟩ := processPdfPart_preserves env st p
    exact ⟨h1.trans g1, h2.trans g2⟩

theorem processThyro_preserves (env : FetchEnv) (st : PState) (parts : List MimePart) :
    (processThyro env st parts).processed = st.processed ∧
    (processThyro env st parts).seen = st.seen := by
  rw [processThyro_eq]
  cases extract_thyrocare_link parts with
  | none => exact ⟨rfl, rfl⟩
  | some link =>
    dsimp only
    cases hfetch : env.thyroFetch link with
    | error e => simp [hfetch]
    | ok b =>
      dsimp only [hfetch]
      cases hx : extract_patient_name env.nlp (env.pdfOf b)
          "thyro_tmp.pdf" "thyrocare-report.pdf" with
      | ok v => obtain ⟨nm, src⟩ := v; simp [hfetch, hx]
      | error e => simp [hfetch, hx]

/-- The artifact handling of a message: the state before the store call. -/
def artifactStage (env : FetchEnv) (st : PState) (msg : EmailMsg) : PState :=
  if (msg.parts.filter isPdfPart).isEmpty then processThyro env st msg.parts
  else (msg.parts.filter isPdfPart).foldl (processPdfPart env) st

theorem artifactStage_preserves (env : FetchEnv) (st : PState) (msg : EmailMsg) :
    (artifactStage env st msg).processed = st.processed ∧
    (artifactStage env st msg).seen = st.seen := by
  unfold artifactStage
  split
  · exact processThyro_preserves env st msg.parts
  · exact foldlPdf_preserves env (msg.parts.filter isPdfPart) st

/-- `processMessage` in terms of `artifactStage`. -/
theorem processMessage_eq (env : FetchEnv) (st : PState) (uid : Nat) (msg : EmailMsg) :
    processMessage env st uid msg =
      (if st.processed.contains (messageIdOf msg uid) then (st, false)
       else
        match env.store uid with
        | .succeeded =>
          ({ artifactStage env st msg with
              seen := (artifactStage env st msg).seen ++ [uid],
              processed := (artifactStage env st msg).processed ++
                [messageIdOf msg uid] }, false)
        | .connErr => (artifactStage env st msg, true)
        | .otherErr => (artifactStage env st msg, false)) := rfl

/-- Environment agreement on everything except the upload response. -/
theorem processPdfPart_congr (e1 e2 : FetchEnv) (hn : e1.nlp = e2.nlp)
    (hp : e1.pdfOf = e2.pdfOf) (st : PState) (p : MimePart) :
    processPdfPart e1 st p = processPdfPart e2 st p := by
  rw [processPdfPart_eq, processPdfPart_eq, hn, hp]

theorem foldlPdf_congr (e1 e2 : FetchEnv) (hn : e1.nlp = e2.nlp)
    (hp : e1.pdfOf = e2.pdfOf) (ps : List MimePart) :
    ∀ st : PState, ps.foldl (processPdfPart e1) st = ps.foldl (processPdfPart e2) st := by
  induction ps with
  | nil => intro st; rw [List.foldl_nil, List.foldl_nil]
  | cons p ps ih =>
    intro st
    rw [List.foldl_cons, List.foldl_cons, processPdfPart_congr e1 e2 hn hp st p]
    exact ih (processPdfPart e2 st p)

theorem processThyro_congr (e1 e2 : FetchEnv) (hn : e1.nlp = e2.nlp)
    (hp : e1.pdfOf = e2.pdfOf) (ht : e1.thyroFetch = e2.thyroFetch)
    (st : PState) (parts : List MimePart) :
    processThyro e1 st parts = processThyro e2 st parts := by
  rw [processThyro_eq, processThyro_eq, hn, hp, ht]

theorem artifactStage_congr (e1 e2 : FetchEnv) (hn : e1.nlp = e2.nlp)
    (hp : e1.pdfOf = e2.pdfOf) (ht : e1.thyroFetch = e2.thyroFetch)
    (st : PState) (msg : EmailMsg) :
    artifactStage e1 st msg = artifactStage e2 st msg := by
  unfold artifactStage
  rw [processThyro_congr e1 e2 hn hp ht,
    foldlPdf_congr e1 e2 hn hp (msg.parts.filter isPdfPart) st]

theorem processMessage_congr (e1 e2 : FetchEnv) (hn : e1.nlp = e2.nlp)
    (hp : e1.pdfOf = e2.pdfOf) (ht : e1.thyroFetch = e2.thyroFetch)
    (hs : e1.store = e2.store) (st : PState) (uid : Nat) (msg : EmailMsg) :
    processMessage e1 st uid msg = processMessage e2 st uid msg := by
  rw [processMessage_eq, processMessage_eq,
    artifactStage_congr e1 e2 hn hp ht, hs]

/-! ## Claim C10: the upload outcome is never consulted -/

/-- C10: two environments that agree on everything but the upload response
    produce identical processing states (the response is only logged); and a
    fresh message is, once its artifacts are routed, always marked seen once
    and recorded in the single processed set — success or failure alike. -/
theorem upload_outcome_never_consulted (e1 e2 : FetchEnv)
    (hn : e1.nlp = e2.nlp) (hp : e1.pdfOf = e2.pdfOf)
    (ht : e1.thyroFetch = e2.thyroFetch) (hs : e1.store = e2.store)
    (st : PState) (uid : Nat) (msg : EmailMsg)
    (_hart : msg.parts.any isPdfPart = true ∨
      (extract_thyrocare_link msg.parts).isSome = true)
    (hnew : st.processed.contains (messageIdOf msg uid) = false)
    (hstore : e1.store uid = .succeeded) :
    processMessage e1 st uid msg = processMessage e2 st uid msg ∧
    (processMessage e1 st uid msg).1.processed =
      st.processed ++ [messageIdOf msg uid] ∧
    (processMessage e1 st uid msg).1.seen = st.seen ++ [uid] := by
  refine ⟨processMessage_congr e1 e2 hn hp ht hs st uid msg, ?_, ?_⟩ <;>
  · have hnot : ¬(st.processed.contains (messageIdOf msg uid) = true) := by
      rw [hnew]; exact Bool.false_ne_true
    rw [processMessage_eq, if_neg hnot, hstore]
    simp [(artifactStage_preserves e1 st msg).1, (artifactStage_preserves e1 st msg).2]

/-- A concrete environment whose upload POST always returns HTTP 200. -/
def envOkResp : FetchEnv :=
  ⟨fun _ => [], fun _ => ⟨.error ()⟩, fun _ => .error (),
   fun _ _ => .ok 200, fun _ => .succeeded⟩

/-- A concrete environment whose upload POST always fails with a network
    error (every attempt fails). -/
def envErrResp : FetchEnv :=
  ⟨fun _ => [], fun _ => ⟨.error ()⟩, fun _ => .error (),
   fun _ _ => .error (), fun _ => .succeeded⟩

/-- A concrete message with one AG-named PDF attachment. -/
def msgW10 : EmailMsg :=
  ⟨some "m10", [⟨false, "1_Asha_WL.pdf", some "B10", "application/pdf", none⟩]⟩

/-- Witness for C10: the same message processed under an always-succeeding and
    an always-failing upload yields identical states. -/
theorem upload_outcome_never_consulted_witness :
    (msgW10.parts.any isPdfPart = true ∨
      (extract_thyrocare_link msgW10.parts).isSome = true) ∧
    (PState.mk [] [] [] []).processed.contains (messageIdOf msgW10 3) = false ∧
    envOkResp.store 3 = .succeeded ∧
    processMessage envOkResp ⟨[], [], [], []⟩ 3 msgW10 =
      processMessage envErrResp ⟨[], [], [], []⟩ 3 msgW10 :=
  ⟨Or.inl (by decide), by decide, rfl,
   (upload_outcome_never_consulted envOkResp envErrResp rfl rfl rfl rfl
     ⟨[], [], [], []⟩ 3 msgW10 (Or.inl (by decide)) (by decide) rfl).1⟩

/-! ## Claim C1: no retry loop, and failed uploads are still marked processed -/

/-- A concrete message with one AG-named PDF attachment and Message-ID "m1". -/
def msgC1 : EmailMsg :=
  ⟨some "m1", [⟨false, "1_Ramesh_Kumar_WL.pdf", some "PDFBYTES",
    "application/pdf", none⟩]⟩

/-- C1 counterexample: with an upload that fails every attempt
    (`envErrResp.resp` always raises), processing the message performs exactly
    one POST — there is no retry loop and no configured maximum — and the
    message's identifier ends up in the single processed set (the set the
    dedup gate consults, i.e. the code's only "Succeeded" set), contradicting
    "retries up to a configured maximum" and "not in the Succeeded set";
    there is no PermanentlyFailed set at all. -/
theorem upload_retry_claim_cex :
    (processMessage envErrResp ⟨[], [], [], []⟩ 7 msgC1).1.uploads.length = 1 ∧
    (processMessage envErrResp ⟨[], [], [], []⟩ 7 msgC1).1.processed = ["m1"] ∧
    (processMessage envErrResp ⟨[], [], [], []⟩ 7 msgC1).1.seen = [7] := by
  decide

/-- C1 (amended): the upload client performs exactly one POST per artifact —
    no retry, no configured maximum, no delay — and returns no outcome; a
    message whose upload fails every attempt is nevertheless flagged seen
    exactly once and its identifier is recorded in the single processed set
    (there is no separate PermanentlyFailed set). -/
theorem failed_upload_single_attempt_marked (env : FetchEnv) (st : PState)
    (uid : Nat) (hdr fn payload ct : String) (bt : Option String)
    (_hfail : ∀ b n, env.resp b n = .error ())
    (hhdr : hdr ≠ "")
    (hag : agStemMatch (splitextStem (strLower (pyBasename fn))) = true)
    (hpdfext : strEndsWith (strLower fn) ".pdf" = true)
    (hfn : fn ≠ "")
    (hnew : st.processed.contains hdr = false)
    (hstore : env.store uid = .succeeded) :
    processMessage env st uid ⟨some hdr, [⟨false, fn, some payload, ct, bt⟩]⟩ =
      (⟨st.processed ++ [hdr], st.seen ++ [uid],
        st.uploads ++ [(payload, extract_from_filename fn)],
        st.extracts ++ [fn]⟩, false) := by
  have hpart : isPdfPart ⟨false, fn, some payload, ct, bt⟩ = true := by
    simp [isPdfPart, hpdfext, hfn]
  have hx : extract_patient_name env.nlp (env.pdfOf payload) "rep_tmp.pdf" fn =
      .ok (extract_from_filename fn, "filename") := by
    simp only [extract_patient_name, if_neg hfn, hag, if_true]
  have hfilter : List.filter isPdfPart [⟨false, fn, some payload, ct, bt⟩] =
      [(⟨false, fn, some payload, ct, bt⟩ : MimePart)] := by
    rw [List.filter_cons, if_pos hpart, List.filter_nil]
  have hstage : artifactStage env st ⟨some hdr, [⟨false, fn, some payload, ct, bt⟩]⟩ =
      ⟨st.processed, st.seen, st.uploads ++ [(payload, extract_from_filename fn)],
       st.extracts ++ [fn]⟩ := by
    unfold artifactStage
    rw [hfilter, List.isEmpty_cons, if_neg Bool.false_ne_true,
      List.foldl_cons, List.foldl_nil, processPdfPart_eq]
    dsimp only
    rw [hx]
  have hnot : ¬(st.processed.contains hdr = true) := by
    rw [hnew]
    exact Bool.false_ne_true
  have hmid : messageIdOf ⟨some hdr, [⟨false, fn, some payload, ct, bt⟩]⟩ uid = hdr := by
    unfold messageIdOf
    exact if_neg hhdr
  rw [processMessage_eq, hmid, if_neg hnot, hstore]
  dsimp only
  rw [hstage]

/-- Witness for C1 (amended) at the concrete always-failing environment. -/
theorem failed_upload_single_attempt_marked_witness :
    (∀ b n, envErrResp.resp b n = .error ()) ∧
    agStemMatch (splitextStem (strLower (pyBasename "1_Ramesh_Kumar_WL.pdf"))) = true ∧
    processMessage envErrResp ⟨[], [], [], []⟩ 7
        ⟨some "m1", [⟨false, "1_Ramesh_Kumar_WL.pdf", some "PDFBYTES",
          "application/pdf", none⟩]⟩ =
      (⟨[] ++ ["m1"], [] ++ [7],
        [] ++ [("PDFBYTES", extract_from_filename "1_Ramesh_Kumar_WL.pdf")],
        [] ++ ["1_Ramesh_Kumar_WL.pdf"]⟩, false) :=
  ⟨fun _ _ => rfl, by decide,
   failed_upload_single_attempt_marked envErrResp ⟨[], [], [], []⟩ 7 "m1"
     "1_Ramesh_Kumar_WL.pdf" "PDFBYTES" "application/pdf" none
     (fun _ _ => rfl) (by decide) (by decide) (by decide) (by decide) (by decide) rfl⟩

/-! ## Claim C7: a connection error aborts the whole session -/

/-- C7: if the fetch of the second batch fails with a connection error, the
    session ends with exactly the state reached after the first batch — no
    later batch is attempted, everything resolved in batch 1 stays resolved,
    and nothing from batches 2-3 is recorded. -/
theorem conn_error_aborts_session (env : SessEnv) (st : PState)
    (b1 b2 b3 : List Nat) (msgs1 : List (Nat × EmailMsg))
    (h1 : env.fetch b1 = .ok msgs1) (h2 : env.fetch b2 = .connErr) :
    processBatches env st [b1, b2, b3] = (processMsgs env.toFetchEnv st msgs1).1 ∧
    (∀ id, id ∈ (processMsgs env.toFetchEnv st msgs1).1.processed →
      id ∈ (processBatches env st [b1, b2, b3]).processed) := by
  have hmain : processBatches env st [b1, b2, b3] =
      (processMsgs env.toFetchEnv st msgs1).1 := by
    unfold processBatches
    rw [h1]
    dsimp only
    cases hr : (processMsgs env.toFetchEnv st msgs1).2 with
    | true => simp
    | false =>
      simp only [Bool.false_eq_true, if_false]
      unfold processBatches
      rw [h2]
  exact ⟨hmain, fun id hid => hmain ▸ hid⟩

/-- A concrete session environment: batch `[10, 9]` fetches one message,
    batch `[8, 7]` hits a connection error. -/
def sessW : SessEnv :=
  { nlp := fun _ => [], pdfOf := fun _ => ⟨.error ()⟩,
    thyroFetch := fun _ => .error (), resp := fun _ _ => .ok 200,
    store := fun _ => .succeeded,
    fetch := fun b =>
      if b = [10, 9] then .ok [(10, msgW10)]
      else if b = [8, 7] then .connErr
      else .notOk }

/-- Witness for C7 at the concrete three-batch session. -/
theorem conn_error_aborts_session_witness :
    sessW.fetch [10, 9] = .ok [(10, msgW10)] ∧
    sessW.fetch [8, 7] = .connErr ∧
    processBatches sessW ⟨[], [], [], []⟩ [[10, 9], [8, 7], [6, 5]] =
      (processMsgs sessW.toFetchEnv ⟨[], [], [], []⟩ [(10, msgW10)]).1 :=
  ⟨rfl, rfl,
   (conn_error_aborts_session sessW ⟨[], [], [], []⟩ [10, 9] [8, 7] [6, 5]
     [(10, msgW10)] rfl rfl).1⟩

end MLPdf
